import Mathlib

/-!
Verification of the two-stage sensitive-data redaction engine
(`code/test_gemini/app.py` and `code2/code/app.py`).

Texts are Lean `String`s (Python `str` over characters).  The regex engine
is abstracted: a `Matcher` decomposes a text into literal and matched
fragments, exactly the decomposition `rx.sub` works through; well-formed
matchers (`MatcherWF`) are those whose fragments concatenate back to the
input.  Exceptions (`raise ValueError`) are modelled with `Except String`.
-/

namespace S2P

/-- Substring test over character lists: `needle` occurs inside `hay`.
Models Python `re.search` of a fixed literal alternative. -/
def strContains (hay needle : String) : Bool :=
  hay.data.tails.any (fun t => needle.data.isPrefixOf t)

/-- The guard alternatives of `guard = re.compile(r"\[(PHONE|CARD|...)\]")`,
each wrapped in brackets as the regex requires. -/
def guardTokens : List String :=
  ["[PHONE]", "[CARD]", "[EMAIL]", "[IP]", "[JWT]", "[UUID]", "[MAC]",
   "[ADDRESS]", "[ACCOUNT]", "[TOKEN]", "[PASSPORT]", "[DRIVER_LICENSE]",
   "[CREDENTIAL]"]

/-- Holds when `guard.search(val)` succeeds: the fragment already holds a placeholder. -/
def isGuarded (val : String) : Bool :=
  guardTokens.any (fun t => strContains val t)

/-- Computes `[int(c) for c in re.sub(r"\D","", s)]`: the decimal digits of `s`. -/
def digitsOf (s : String) : List Nat :=
  s.data.filterMap (fun c => if c.isDigit then some (c.toNat - 48) else none)

/-- Double a digit, subtracting 9 when the doubled value exceeds 9. -/
def luhnDouble (d : Nat) : Nat :=
  if 2 * d > 9 then 2 * d - 9 else 2 * d

/-- The summation loop of `luhn_ok`: digit at running index `i` is doubled
when `i % 2 == parity`. -/
def luhnTotalAux (parity : Nat) : List Nat → Nat → Nat
  | [], _ => 0
  | d :: ds, i =>
      (if i % 2 = parity then luhnDouble d else d) + luhnTotalAux parity ds (i + 1)

/-- Function `luhn_ok` from `app.py`: strip non-digits, require 13–19 digits,
double digits at indices congruent to `len % 2`, pass iff the total is
divisible by 10. -/
def luhn_ok (s : String) : Bool :=
  let digits := digitsOf s
  if 13 ≤ digits.length ∧ digits.length ≤ 19 then
    decide (luhnTotalAux (digits.length % 2) digits 0 % 10 = 0)
  else false

/-- Modelled from the spec (§4.2 wording, for comparison with `luhn_ok`):
starting from the rightmost digit, every second digit — the ones at odd
0-based positions counted from the right — is doubled. -/
def luhnTotalSpec : List Nat → Nat
  | [] => 0
  | d :: ds =>
      (if ds.length % 2 = 1 then luhnDouble d else d) + luhnTotalSpec ds

/-- Modelled from the spec (§4.2, for comparison with `luhn_ok`): strip
non-digit characters, require a digit count between 13 and 19 inclusive,
double every second digit starting from the rightmost, subtract 9 from
doubled values exceeding 9, pass iff the total is divisible by 10. -/
def luhnSpec (s : String) : Bool :=
  let digits := digitsOf s
  if 13 ≤ digits.length ∧ digits.length ≤ 19 then
    decide (luhnTotalSpec digits % 10 = 0)
  else false

/-- A detection rule: `{name, regex, action, replacement?, validator?,
message?}` from `patterns.json` (the regex itself stays inside the abstract
matcher). -/
structure Rule where
  name : String
  action : String
  replacement : Option String := none
  validator : Option String := none
  message : Option String := none
deriving DecidableEq, Repr

/-- A recorded detection: `{"name": ..., "value": ..., "action": ...}`. -/
structure Finding where
  name : String
  value : String
  action : String
deriving DecidableEq, Repr

/-- The dict `priority` with entries block 0, mask 1, generalize 2, and default 3 via
`priority.get(x["action"], 3)`. -/
def priority (action : String) : Nat :=
  if action = "block" then 0
  else if action = "mask" then 1
  else if action = "generalize" then 2
  else 3

/-- The sort key order used by `sorted(PATTERNS, key=...)`. -/
def ruleLE (a b : Rule) : Prop := priority a.action ≤ priority b.action

instance : DecidableRel ruleLE :=
  fun a b => inferInstanceAs (Decidable (priority a.action ≤ priority b.action))

instance : IsTotal Rule ruleLE := ⟨fun x y => Nat.le_total (priority x.action) (priority y.action)⟩

instance : IsTrans Rule ruleLE := ⟨fun _ _ _ => Nat.le_trans⟩

/-- Python `sorted` is the stable sort by the priority key; stable sorting
by a fixed total preorder has a unique result, so insertion sort (also
stable) is extensionally the same function. -/
def sortRules (rules : List Rule) : List Rule :=
  List.insertionSort ruleLE rules

/-- One fragment of `rx.sub`'s traversal of a text: a stretch the regex
does not match, or one non-overlapping match. -/
inductive Frag where
  | lit : String → Frag
  | hit : String → Frag
deriving DecidableEq, Repr

/-- Concatenating the fragments back. -/
def renderFrags : List Frag → String
  | [] => ""
  | .lit s :: r => s ++ renderFrags r
  | .hit s :: r => s ++ renderFrags r

/-- Abstract regex engine: how a rule's compiled pattern decomposes a text
into unmatched stretches and matches, in order. -/
def Matcher : Type := Rule → String → List Frag

/-- A matcher is well-formed when its fragments concatenate to the input. -/
def MatcherWF (M : Matcher) : Prop := ∀ r t, renderFrags (M r t) = t

/-- The `_repl` callback of `apply_patterns` (test_gemini version) on one
matched value: guard check, then LUHN validator, then record a finding and
either raise (block) or produce the replacement.  `subRe` abstracts
`re.sub(rx, rep, val)`, the backreference substitution scoped to the
matched fragment. -/
def replFrag (subRe : Rule → String → String) (p : Rule) (val : String) :
    Except String (String × Option Finding) :=
  if isGuarded val then .ok (val, none)
  else if p.validator = some "LUHN" && !luhn_ok val then .ok (val, none)
  else
    let f : Finding := ⟨p.name, val, p.action⟩
    if p.action = "block" then .error (p.message.getD p.name)
    else
      let rep := p.replacement.getD "[REDACTED]"
      let rep2 :=
        if !strContains rep "\\1" && !strContains rep "\\2" then rep
        else subRe p val
      .ok (rep2, some f)

/-- Runs `rx.sub(_repl, masked)` over the fragment decomposition: matches are
processed left to right, findings accumulate in order, and a raise from
`_repl` aborts the whole scan. -/
def runFrags (subRe : Rule → String → String) (p : Rule) :
    List Frag → Except String (String × List Finding)
  | [] => .ok ("", [])
  | .lit s :: rest =>
      match runFrags subRe p rest with
      | .error e => .error e
      | .ok (t, fs) => .ok (s ++ t, fs)
  | .hit v :: rest =>
      match replFrag subRe p v with
      | .error e => .error e
      | .ok (r, of) =>
          match runFrags subRe p rest with
          | .error e => .error e
          | .ok (t, fs) => .ok (r ++ t, of.toList ++ fs)

/-- The rule loop of `apply_patterns`: each rule rescans the text produced
by the previous ones. -/
def applyPatternsGo (M : Matcher) (subRe : Rule → String → String) :
    List Rule → String → List Finding → Except String (String × List Finding)
  | [], t, fs => .ok (t, fs)
  | p :: ps, t, fs =>
      match runFrags subRe p (M p t) with
      | .error e => .error e
      | .ok (t2, fs2) => applyPatternsGo M subRe ps t2 (fs ++ fs2)

/-- Function `apply_patterns` (test_gemini version): rules in block → mask →
generalize order; returns the masked text and the findings, or the raised
block message. -/
def apply_patterns (M : Matcher) (subRe : Rule → String → String)
    (rules : List Rule) (text : String) : Except String (String × List Finding) :=
  applyPatternsGo M subRe (sortRules rules) text []

/-- The `_repl` callback of the code2 `apply_patterns`: guard check, then a
finding; block raises `ValueError(p.name)`, anything else becomes the fixed
`"[REDACTED]"` (code2 has no validator and no replacement templates). -/
def replFrag2 (p : Rule) (val : String) : Except String (String × Option Finding) :=
  if isGuarded val then .ok (val, none)
  else
    let f : Finding := ⟨p.name, val, p.action⟩
    if p.action = "block" then .error p.name
    else .ok ("[REDACTED]", some f)

/-- code2's `rx.sub(_repl, masked)` over the fragment decomposition. -/
def runFrags2 (p : Rule) : List Frag → Except String (String × List Finding)
  | [] => .ok ("", [])
  | .lit s :: rest =>
      match runFrags2 p rest with
      | .error e => .error e
      | .ok (t, fs) => .ok (s ++ t, fs)
  | .hit v :: rest =>
      match replFrag2 p v with
      | .error e => .error e
      | .ok (r, of) =>
          match runFrags2 p rest with
          | .error e => .error e
          | .ok (t, fs) => .ok (r ++ t, of.toList ++ fs)

/-- The rule loop of code2's `apply_patterns`. -/
def applyPatterns2Go (M : Matcher) :
    List Rule → String → List Finding → Except String (String × List Finding)
  | [], t, fs => .ok (t, fs)
  | p :: ps, t, fs =>
      match runFrags2 p (M p t) with
      | .error e => .error e
      | .ok (t2, fs2) => applyPatterns2Go M ps t2 (fs ++ fs2)

/-- Function `apply_patterns` from `code2/code/app.py`. -/
def apply_patterns2 (M : Matcher) (rules : List Rule) (text : String) :
    Except String (String × List Finding) :=
  applyPatterns2Go M (sortRules rules) text []

/-- A classifier judgement `{"span":[s,e], "label":..., "action":...}`.
Judgements produced by `judge_sensitive_with_gemini` never carry a
`replacement` key, but `apply_gemini_judgement` reads it with a default,
so the field is kept optional. -/
structure Judgement where
  span : Int × Int
  label : String
  action : String
  replacement : Option String := none
deriving DecidableEq, Repr

/-- Resolve a Python slice endpoint against a string of `len` characters:
negative indices count from the end, and both ends are clamped to
`[0, len]`. -/
def pyIdx (len : Nat) (i : Int) : Nat :=
  if i < 0 then ((len : Int) + i).toNat else min i.toNat len

/-- Slice `t[s:e]` on character lists. -/
def pySliceL (l : List Char) (s e : Int) : List Char :=
  (l.take (pyIdx l.length e)).drop (pyIdx l.length s)

/-- Slice `t[s:e]`. -/
def pySlice (t : String) (s e : Int) : String :=
  List.asString (pySliceL t.data s e)

/-- Slice `t[:e]`. -/
def pyPrefix (t : String) (e : Int) : String :=
  List.asString (t.data.take (pyIdx t.data.length e))

/-- Slice `t[s:]`. -/
def pySuffix (t : String) (s : Int) : String :=
  List.asString (t.data.drop (pyIdx t.data.length s))

/-- The key order of `sorted(judgements, key=lambda x: x["span"][0],
reverse=True)`: descending start offset. -/
def judgeGE (a b : Judgement) : Prop := b.span.1 ≤ a.span.1

instance : DecidableRel judgeGE :=
  fun a b => inferInstanceAs (Decidable (b.span.1 ≤ a.span.1))

instance : IsTotal Judgement judgeGE := ⟨fun x y => Int.le_total y.span.1 x.span.1⟩

instance : IsTrans Judgement judgeGE := ⟨fun _ _ _ h h2 => Int.le_trans h2 h⟩

/-- Python's `sorted(..., reverse=True)` is the stable descending sort by
the start offset; insertion sort under `judgeGE` computes the same list. -/
def sortJudgements (js : List Judgement) : List Judgement :=
  List.insertionSort judgeGE js

/-- The loop of `apply_gemini_judgement`: walk the descending-sorted
judgements, slicing the current text, raising on a block action, otherwise
splicing the replacement in and appending a finding; the collected findings
are reversed on return. -/
def applyJudgeGo : String → List Judgement → List Finding →
    Except String (String × List Finding)
  | t, [], out => .ok (t, out.reverse)
  | t, j :: rest, out =>
      let s := j.span.1
      let e := j.span.2
      let val := pySlice t s e
      if j.action = "block" then .error ("모델 판정 차단: " ++ j.label)
      else
        let rep := j.replacement.getD ("[" ++ j.label ++ "]")
        applyJudgeGo (pyPrefix t s ++ rep ++ pySuffix t e) rest
          (out ++ [⟨j.label, val, j.action⟩])

/-- Function `apply_gemini_judgement` (identical in both app versions). -/
def apply_gemini_judgement (text : String) (js : List Judgement) :
    Except String (String × List Finding) :=
  if js.isEmpty then .ok (text, [])
  else applyJudgeGo text (sortJudgements js) []

/-- Instrumentation of the same loop: how many span splices
`apply_gemini_judgement` performs on its local copy of the text before it
returns or raises. -/
def spliceCountGo : String → List Judgement → Nat → Nat
  | _, [], n => n
  | t, j :: rest, n =>
      let s := j.span.1
      let e := j.span.2
      if j.action = "block" then n
      else
        let rep := j.replacement.getD ("[" ++ j.label ++ "]")
        spliceCountGo (pyPrefix t s ++ rep ++ pySuffix t e) rest (n + 1)

/-- Number of splices `apply_gemini_judgement` applies before terminating. -/
def spliceCount (text : String) (js : List Judgement) : Nat :=
  if js.isEmpty then 0 else spliceCountGo text (sortJudgements js) 0

/-- A JSON value, for the classifier's untrusted payload. -/
inductive JValue where
  | null : JValue
  | bool : Bool → JValue
  | int : Int → JValue
  | str : String → JValue
  | arr : List JValue → JValue
  | obj : List (String × JValue) → JValue

/-- Reads `j.get("label","ETC")`, restricted to the string labels the prompt asks
for (a non-string label would be carried through by Python and only
stringified later; no claim exercises that). -/
def labelOf (fields : List (String × JValue)) : String :=
  match fields.lookup "label" with
  | some (.str s) => s
  | _ => "ETC"

/-- Computes `"block" if j.get("action")=="block" else "mask"`. -/
def actionOf (fields : List (String × JValue)) : String :=
  match fields.lookup "action" with
  | some (.str s) => if s = "block" then "block" else "mask"
  | _ => "mask"

/-- Normalisation of one parsed element: non-objects are skipped, the span
must be a two-element integer list, label defaults to `"ETC"`, action is
forced to `"mask"` unless explicitly `"block"`. -/
def normElem (j : JValue) : Option Judgement :=
  match j with
  | .obj fields =>
      match fields.lookup "span" with
      | some (.arr [.int a, .int b]) =>
          some ⟨(a, b), labelOf fields, actionOf fields, none⟩
      | _ => none
  | _ => none

/-- The `for j in arr` loop: only a JSON array contributes judgements (a
dict iterates its string keys and a string its characters, both skipped by
the `isinstance(j, dict)` test; any other value raises and is caught). -/
def normalize (v : JValue) : List Judgement :=
  match v with
  | .arr xs => xs.filterMap normElem
  | _ => []

/-- What reached `judge_sensitive_with_gemini` from the outside: either the
external call raised, or it yielded content whose JSON extraction
(`re.search(r"[\s*\{.*\}\s*\]")` + `json.loads`) produced a value or
failed.  Empty content falls under the parse-failure case. -/
inductive RawOutcome where
  | callFailure : RawOutcome
  | content : Except String JValue → RawOutcome

/-- Function `judge_sensitive_with_gemini`: the whole body sits in `try/except`, so
every failure path degrades to `[]`; a parsed value is normalised. -/
def judge_sensitive (r : RawOutcome) : List Judgement :=
  match r with
  | .callFailure => []
  | .content (.error _) => []
  | .content (.ok v) => normalize v

/-- One `{role, content}` entry of the conversation. -/
structure Message where
  role : String
  content : String
deriving DecidableEq, Repr

/-- External capabilities the pipeline invokes, in invocation order: a
classifier call (`GMODEL.generate_content` inside
`judge_sensitive_with_gemini`) or a generation call
(`start_chat(history).send_message(last_user)` inside
`call_gemini_generate`, recorded with the arguments it receives). -/
inductive ExtCall where
  | classify : String → ExtCall
  | generate : List Message → String → ExtCall
deriving DecidableEq, Repr

/-- The observable outcome of one `/chat` request.  `blocked` is the 400
response produced by `except ValueError`; `inputError` is code2's 400 when
no user message exists; `crash` is an exception escaping the handler
(test_gemini has no `idx is None` check and does not wrap its output
filter). -/
inductive ChatOutcome where
  | blocked : String → ChatOutcome
  | inputError : String → ChatOutcome
  | crash : String → ChatOutcome
  | success : String → String → String → List Finding → List Finding →
      List Finding → ChatOutcome
deriving DecidableEq, Repr

/-- Discriminator: the outcome is the caught-block 400 response. -/
def ChatOutcome.isBlocked : ChatOutcome → Bool
  | .blocked _ => true
  | _ => false

/-- Discriminator: the outcome is an exception escaping the handler. -/
def ChatOutcome.isCrash : ChatOutcome → Bool
  | .crash _ => true
  | _ => false

/-- Discriminator: the outcome is code2's missing-user 400 response. -/
def ChatOutcome.isInputErr : ChatOutcome → Bool
  | .inputError _ => true
  | _ => false

/-- Computes `next((i for i in range(len(messages)-1, -1, -1) if
messages[i]["role"]=="user"), None)`: the largest index with role "user". -/
def lastUserIdx (ms : List Message) : Option Nat :=
  (List.range ms.length).reverse.find?
    (fun i => ((ms.get? i).map Message.role).getD "" = "user")

/-- Reads `messages[idx]["content"]` (for an index known to be in range). -/
def msgContent (ms : List Message) (idx : Nat) : String :=
  ((ms.get? idx).getD ⟨"", ""⟩).content

/-- Python `str.strip()` on the character list (the whitespace set of
`Char.isWhitespace`; the claims only exercise ASCII spaces). -/
def pyStrip (s : String) : String :=
  (((s.data.dropWhile Char.isWhitespace).reverse.dropWhile
      Char.isWhitespace).reverse).asString

/-- Python `str.lower()`. -/
def pyLower (s : String) : String := (s.data.map Char.toLower).asString

/-- Python `s.startswith(pre)`. -/
def pyStartsWith (s pre : String) : Bool := pre.data.isPrefixOf s.data

/-- The model-selection test of `call_gemini_generate`:
`model_id and model_id != "demo-local" and not
model_id.lower().startswith("gpt-")`.  Anything else routes to the demo
echo, which never touches the generation capability. -/
def realModel (modelId : String) : Bool :=
  modelId ≠ "" && modelId ≠ "demo-local"
    && !(pyStartsWith (pyLower modelId) "gpt-")

/-- The history `call_gemini_generate` hands to `start_chat`: the messages
before the last user turn, roles mapped to user/model, entries whose
content strips to empty dropped. -/
def historyOf (ms : List Message) (lastIdx : Nat) : List Message :=
  (ms.take lastIdx).filterMap (fun m =>
    let content := pyStrip m.content
    if content = "" then none
    else some ⟨if m.role = "user" then "user" else "model", content⟩)

/-- Coercion of a falsy capability reply:
`getattr(resp, "text", "") or "(empty response)"`. -/
def respOf (r : String) : String := if r = "" then "(empty response)" else r

/-- Function `call_gemini_generate` (the same logic in both app versions):
a falsy/demo/gpt model id echoes the last user content (first 120
characters) without any external call; otherwise the last user turn is
located and, when missing or stripping to empty, a fixed placeholder is
returned before `start_chat`/`send_message` is ever reached.  Only on the
real-model, non-empty path is the generation capability (`send`) invoked,
with the cleaned history and the stripped last user turn; the second
component records exactly that invocation. -/
def call_gemini_generate (send : List Message → String → String)
    (modelId : String) (ms : List Message) : String × List ExtCall :=
  if !(realModel modelId) then
    let last := (ms.reverse.find? (fun m => m.role = "user")).getD ⟨"", ""⟩
    ("입력 요약: " ++ (last.content.data.take 120).asString, [])
  else
    match lastUserIdx ms with
    | none => ("(no user message)", [])
    | some i =>
        let lastUser := pyStrip (msgContent ms i)
        if lastUser = "" then ("(empty user message)", [])
        else
          let history := historyOf ms i
          (respOf (send history lastUser), [.generate history lastUser])

/-- The `/chat` handler of `code/test_gemini/app.py`, parametrised by the
abstract regex engine, the backreference substituter, the external
classifier (`judge`) and the generation capability (`send`, the
`send_message` boundary inside `call_gemini_generate`).  The second
component lists the external calls made; a generate entry appears only
when `call_gemini_generate` actually reaches `send_message`.  A missing
user message crashes (`messages[None]`), and a block raised by the output
filter escapes the handler (that call is outside every `try`). -/
def chatTG (M : Matcher) (subRe : Rule → String → String)
    (judge : String → List Judgement) (send : List Message → String → String)
    (modelId : String) (rules : List Rule) (messages : List Message) :
    ChatOutcome × List ExtCall :=
  match lastUserIdx messages with
  | none => (.crash "TypeError: list indices must be integers, not NoneType", [])
  | some idx =>
      let orig := msgContent messages idx
      match apply_patterns M subRe rules orig with
      | .error e => (.blocked e, [])
      | .ok (s1, finIn) =>
          let judgements := judge s1
          match apply_gemini_judgement s1 judgements with
          | .error e => (.blocked e, [.classify s1])
          | .ok (s2, finInModel) =>
              let sMessages := messages.set idx ⟨"user", s2⟩
              let gr := call_gemini_generate send modelId sMessages
              match apply_patterns M subRe rules gr.1 with
              | .error e => (.crash e, .classify s1 :: gr.2)
              | .ok (sOut, finOut) =>
                  (.success sOut s1 s2 finIn finInModel finOut,
                   .classify s1 :: gr.2)

/-- The `/chat` handler of `code2/code/app.py`: an explicit 400 when no
user message exists, and one `try/except ValueError` around the whole
pipeline, so a block from any stage (including the output filter) becomes
the same generic blocked response.  Generation goes through the same
`call_gemini_generate` logic, so the generate trace entry again appears
only when `send_message` is actually reached. -/
def chat2 (M : Matcher) (judge : String → List Judgement)
    (send : List Message → String → String) (modelId : String)
    (rules : List Rule) (messages : List Message) :
    ChatOutcome × List ExtCall :=
  match lastUserIdx messages with
  | none => (.inputError "사용자 메시지가 없습니다.", [])
  | some idx =>
      let orig := msgContent messages idx
      match apply_patterns2 M rules orig with
      | .error e => (.blocked e, [])
      | .ok (s1, finIn) =>
          let judgements := judge s1
          match apply_gemini_judgement s1 judgements with
          | .error e => (.blocked e, [.classify s1])
          | .ok (s2, finInModel) =>
              let sMessages := messages.set idx ⟨"user", s2⟩
              let gr := call_gemini_generate send modelId sMessages
              match apply_patterns2 M rules gr.1 with
              | .error e => (.blocked e, .classify s1 :: gr.2)
              | .ok (sOut, finOut) =>
                  (.success sOut s1 s2 finIn finInModel finOut,
                   .classify s1 :: gr.2)

/-! ### Helper lemmas -/

theorem find?_congr_some {α : Type} (L : List α) (p q : α → Bool) (a : α)
    (h : L.find? p = some a) (hqa : q a = true)
    (hagree : ∀ x ∈ L, x ≠ a → q x = p x) : L.find? q = some a := by
  induction L with
  | nil => simp at h
  | cons x xs ih =>
      by_cases hpx : p x = true
      · rw [List.find?_cons_of_pos _ hpx] at h
        injection h with h
        subst h
        rw [List.find?_cons_of_pos _ hqa]
      · rw [List.find?_cons_of_neg _ hpx] at h
        have hxa : x ≠ a := by
          intro heq
          subst heq
          exact hpx (List.find?_some h)
        have hq : q x = p x := hagree x (List.mem_cons_self _ _) hxa
        rw [List.find?_cons_of_neg _ (by simp [hq]; simpa using hpx)]
        exact ih h (fun y hy hne => hagree y (List.mem_cons_of_mem _ hy) hne)

theorem lastUserIdx_lt (ms : List Message) (idx : Nat)
    (h : lastUserIdx ms = some idx) : idx < ms.length := by
  unfold lastUserIdx at h
  have hm := List.mem_of_find?_eq_some h
  rw [List.mem_reverse] at hm
  exact List.mem_range.mp hm

theorem lastUserIdx_set (ms : List Message) (idx : Nat) (c : String)
    (h : lastUserIdx ms = some idx) :
    lastUserIdx (ms.set idx ⟨"user", c⟩) = some idx := by
  have hlt := lastUserIdx_lt ms idx h
  unfold lastUserIdx at h ⊢
  rw [List.length_set]
  refine find?_congr_some _ _ _ idx h ?_ ?_
  · have hg : (ms.set idx ⟨"user", c⟩)[idx]? = some ⟨"user", c⟩ :=
      List.getElem?_set_self hlt
    simp [hg]
  · intro x hx hne
    have hg : (ms.set idx ⟨"user", c⟩)[x]? = ms[x]? :=
      List.getElem?_set_ne (fun he => hne he.symm)
    simp [hg]

theorem msgContent_set (ms : List Message) (idx : Nat) (c : String)
    (hlt : idx < ms.length) :
    msgContent (ms.set idx ⟨"user", c⟩) idx = c := by
  unfold msgContent
  rw [List.get?_eq_getElem?, List.getElem?_set_self hlt]
  rfl

theorem call_gemini_generate_real (send : List Message → String → String)
    (modelId : String) (ms : List Message) (idx : Nat)
    (hreal : realModel modelId = true) (hidx : lastUserIdx ms = some idx)
    (hne : pyStrip (msgContent ms idx) ≠ "") :
    call_gemini_generate send modelId ms
      = (respOf (send (historyOf ms idx) (pyStrip (msgContent ms idx))),
         [.generate (historyOf ms idx) (pyStrip (msgContent ms idx))]) := by
  unfold call_gemini_generate
  simp [hreal, hidx, hne]

theorem call_gemini_generate_emptyUser (send : List Message → String → String)
    (modelId : String) (ms : List Message) (idx : Nat)
    (hreal : realModel modelId = true) (hidx : lastUserIdx ms = some idx)
    (hemp : pyStrip (msgContent ms idx) = "") :
    call_gemini_generate send modelId ms = ("(empty user message)", []) := by
  unfold call_gemini_generate
  simp [hreal, hidx, hemp]


theorem luhnTotalAux_eq_spec (ds : List Nat) :
    ∀ i : Nat, luhnTotalAux ((i + ds.length) % 2) ds i = luhnTotalSpec ds := by
  induction ds with
  | nil => intro i; rfl
  | cons d t ih =>
      intro i
      have h1 : i + (d :: t).length = (i + 1) + t.length := by
        simp [List.length_cons]; omega
      have h2 : (i % 2 = ((i + 1) + t.length) % 2) ↔ (t.length % 2 = 1) := by
        omega
      simp only [luhnTotalAux, luhnTotalSpec, h1]
      rw [if_congr h2 rfl rfl, ih (i + 1)]

theorem luhn_ok_eq_luhnSpec (s : String) : luhn_ok s = luhnSpec s := by
  unfold luhn_ok luhnSpec
  have h := luhnTotalAux_eq_spec (digitsOf s) 0
  rw [Nat.zero_add] at h
  simp [h]

theorem replFrag_guarded (subRe : Rule → String → String) (p : Rule)
    (v : String) (h : isGuarded v = true) :
    replFrag subRe p v = .ok (v, none) := by
  simp [replFrag, h]

theorem replFrag2_guarded (p : Rule) (v : String) (h : isGuarded v = true) :
    replFrag2 p v = .ok (v, none) := by
  simp [replFrag2, h]

theorem replFrag_luhn_fail (subRe : Rule → String → String) (p : Rule)
    (v : String) (hv : p.validator = some "LUHN") (hl : luhn_ok v = false) :
    replFrag subRe p v = .ok (v, none) := by
  unfold replFrag
  by_cases hg : isGuarded v
  · simp [hg]
  · simp [hg, hv, hl]

theorem replFrag_block (subRe : Rule → String → String) (p : Rule)
    (v : String) (hb : p.action = "block") (hg : isGuarded v = false)
    (hv : p.validator = some "LUHN" → luhn_ok v = true) :
    replFrag subRe p v = .error (p.message.getD p.name) := by
  unfold replFrag
  by_cases hlu : p.validator = some "LUHN"
  · simp [hg, hlu, hv hlu, hb]
  · simp [hg, hlu, hb]

theorem replFrag2_block (p : Rule) (v : String) (hb : p.action = "block")
    (hg : isGuarded v = false) : replFrag2 p v = .error p.name := by
  simp [replFrag2, hg, hb]

theorem replFrag_block_keeps (subRe : Rule → String → String) (p : Rule)
    (v r : String) (of : Option Finding) (hb : p.action = "block")
    (h : replFrag subRe p v = .ok (r, of)) : r = v ∧ of = none := by
  unfold replFrag at h
  by_cases hg : isGuarded v
  · simp [hg] at h; exact ⟨h.1.symm, h.2.symm⟩
  · by_cases hl : (p.validator = some "LUHN" && !luhn_ok v) = true
    · simp [hg, hl] at h; exact ⟨h.1.symm, h.2.symm⟩
    · simp [hg, hl, hb] at h

theorem replFrag2_block_keeps (p : Rule) (v r : String) (of : Option Finding)
    (hb : p.action = "block") (h : replFrag2 p v = .ok (r, of)) :
    r = v ∧ of = none := by
  unfold replFrag2 at h
  by_cases hg : isGuarded v
  · simp [hg] at h; exact ⟨h.1.symm, h.2.symm⟩
  · simp [hg, hb] at h

theorem runFrags_keep (subRe : Rule → String → String) (p : Rule)
    (frags : List Frag)
    (h : ∀ v, Frag.hit v ∈ frags → replFrag subRe p v = .ok (v, none)) :
    runFrags subRe p frags = .ok (renderFrags frags, []) := by
  induction frags with
  | nil => rfl
  | cons f rest ih =>
      have hrest : ∀ v, Frag.hit v ∈ rest → replFrag subRe p v = .ok (v, none) :=
        fun v hv => h v (List.mem_cons_of_mem _ hv)
      cases f with
      | lit s => simp [runFrags, renderFrags, ih hrest]
      | hit v =>
          have hv := h v (List.mem_cons_self _ _)
          simp [runFrags, renderFrags, hv, ih hrest]

theorem runFrags2_keep (p : Rule) (frags : List Frag)
    (h : ∀ v, Frag.hit v ∈ frags → replFrag2 p v = .ok (v, none)) :
    runFrags2 p frags = .ok (renderFrags frags, []) := by
  induction frags with
  | nil => rfl
  | cons f rest ih =>
      have hrest : ∀ v, Frag.hit v ∈ rest → replFrag2 p v = .ok (v, none) :=
        fun v hv => h v (List.mem_cons_of_mem _ hv)
      cases f with
      | lit s => simp [runFrags2, renderFrags, ih hrest]
      | hit v =>
          have hv := h v (List.mem_cons_self _ _)
          simp [runFrags2, renderFrags, hv, ih hrest]

theorem applyPatternsGo_keep (M : Matcher) (subRe : Rule → String → String)
    (L : List Rule) (t : String) (fs : List Finding) (hW : MatcherWF M)
    (h : ∀ r ∈ L, ∀ v, Frag.hit v ∈ M r t → replFrag subRe r v = .ok (v, none)) :
    applyPatternsGo M subRe L t fs = .ok (t, fs) := by
  induction L with
  | nil => rfl
  | cons p ps ih =>
      have hp := runFrags_keep subRe p (M p t)
        (h p (List.mem_cons_self _ _))
      rw [hW p t] at hp
      have hps : ∀ r ∈ ps, ∀ v, Frag.hit v ∈ M r t →
          replFrag subRe r v = .ok (v, none) :=
        fun r hr => h r (List.mem_cons_of_mem _ hr)
      simp [applyPatternsGo, hp, ih hps]

theorem applyPatterns2Go_keep (M : Matcher) (L : List Rule) (t : String)
    (fs : List Finding) (hW : MatcherWF M)
    (h : ∀ r ∈ L, ∀ v, Frag.hit v ∈ M r t → replFrag2 r v = .ok (v, none)) :
    applyPatterns2Go M L t fs = .ok (t, fs) := by
  induction L with
  | nil => rfl
  | cons p ps ih =>
      have hp := runFrags2_keep p (M p t) (h p (List.mem_cons_self _ _))
      rw [hW p t] at hp
      have hps : ∀ r ∈ ps, ∀ v, Frag.hit v ∈ M r t →
          replFrag2 r v = .ok (v, none) :=
        fun r hr => h r (List.mem_cons_of_mem _ hr)
      simp [applyPatterns2Go, hp, ih hps]

theorem apply_patterns_keep (M : Matcher) (subRe : Rule → String → String)
    (rules : List Rule) (t : String) (hW : MatcherWF M)
    (h : ∀ r ∈ rules, ∀ v, Frag.hit v ∈ M r t → replFrag subRe r v = .ok (v, none)) :
    apply_patterns M subRe rules t = .ok (t, []) := by
  refine applyPatternsGo_keep M subRe _ t [] hW ?_
  intro r hr
  exact h r ((List.mem_insertionSort ruleLE).mp hr)

theorem apply_patterns2_keep (M : Matcher) (rules : List Rule) (t : String)
    (hW : MatcherWF M)
    (h : ∀ r ∈ rules, ∀ v, Frag.hit v ∈ M r t → replFrag2 r v = .ok (v, none)) :
    apply_patterns2 M rules t = .ok (t, []) := by
  refine applyPatterns2Go_keep M _ t [] hW ?_
  intro r hr
  exact h r ((List.mem_insertionSort ruleLE).mp hr)

theorem priority_eq_zero {a : String} (h : priority a = 0) : a = "block" := by
  unfold priority at h
  split at h
  · assumption
  · split at h
    · exact absurd h (by simp)
    · split at h
      · exact absurd h (by simp)
      · exact absurd h (by simp)

/-- A hit qualifies for a rule when it is not guarded and passes the
configured validator. -/
def QualHit (p : Rule) (v : String) : Prop :=
  isGuarded v = false ∧ (p.validator = some "LUHN" → luhn_ok v = true)

theorem runFrags_block_ok (subRe : Rule → String → String) (p : Rule)
    (hb : p.action = "block") (frags : List Frag) (t : String)
    (fs : List Finding) (h : runFrags subRe p frags = .ok (t, fs)) :
    t = renderFrags frags ∧ fs = [] := by
  induction frags generalizing t fs with
  | nil => simp [runFrags] at h; simp [renderFrags, h.1.symm, h.2.symm]
  | cons f rest ih =>
      cases f with
      | lit s =>
          rw [runFrags] at h
          cases hr : runFrags subRe p rest with
          | error e => rw [hr] at h; exact absurd h (by simp)
          | ok pr =>
              rw [hr] at h
              obtain ⟨t2, fs2⟩ := pr
              simp at h
              obtain ⟨h1, h2⟩ := ih t2 fs2 hr
              simp [renderFrags, ← h.1, ← h.2, h1, h2]
      | hit v =>
          rw [runFrags] at h
          cases hv : replFrag subRe p v with
          | error e => rw [hv] at h; exact absurd h (by simp)
          | ok pr =>
              rw [hv] at h
              obtain ⟨r, of⟩ := pr
              obtain ⟨hrv, hof⟩ := replFrag_block_keeps subRe p v r of hb hv
              cases hr : runFrags subRe p rest with
              | error e => rw [hr] at h; exact absurd h (by simp)
              | ok pr2 =>
                  rw [hr] at h
                  obtain ⟨t2, fs2⟩ := pr2
                  simp at h
                  obtain ⟨h1, h2⟩ := ih t2 fs2 hr
                  simp [renderFrags, ← h.1, ← h.2, h1, h2, hrv, hof]

theorem runFrags2_block_ok (p : Rule) (hb : p.action = "block")
    (frags : List Frag) (t : String) (fs : List Finding)
    (h : runFrags2 p frags = .ok (t, fs)) :
    t = renderFrags frags ∧ fs = [] := by
  induction frags generalizing t fs with
  | nil => simp [runFrags2] at h; simp [renderFrags, h.1.symm, h.2.symm]
  | cons f rest ih =>
      cases f with
      | lit s =>
          rw [runFrags2] at h
          cases hr : runFrags2 p rest with
          | error e => rw [hr] at h; exact absurd h (by simp)
          | ok pr =>
              rw [hr] at h
              obtain ⟨t2, fs2⟩ := pr
              simp at h
              obtain ⟨h1, h2⟩ := ih t2 fs2 hr
              simp [renderFrags, ← h.1, ← h.2, h1, h2]
      | hit v =>
          rw [runFrags2] at h
          cases hv : replFrag2 p v with
          | error e => rw [hv] at h; exact absurd h (by simp)
          | ok pr =>
              rw [hv] at h
              obtain ⟨r, of⟩ := pr
              obtain ⟨hrv, hof⟩ := replFrag2_block_keeps p v r of hb hv
              cases hr : runFrags2 p rest with
              | error e => rw [hr] at h; exact absurd h (by simp)
              | ok pr2 =>
                  rw [hr] at h
                  obtain ⟨t2, fs2⟩ := pr2
                  simp at h
                  obtain ⟨h1, h2⟩ := ih t2 fs2 hr
                  simp [renderFrags, ← h.1, ← h.2, h1, h2, hrv, hof]

theorem runFrags_block_error (subRe : Rule → String → String) (p : Rule)
    (hb : p.action = "block") (frags : List Frag) (v : String)
    (hm : Frag.hit v ∈ frags) (hq : QualHit p v) :
    ∃ e, runFrags subRe p frags = .error e := by
  induction frags with
  | nil => cases hm
  | cons f rest ih =>
      cases f with
      | lit s =>
          have hm' : Frag.hit v ∈ rest := by
            cases hm with
            | tail _ h => exact h
          obtain ⟨e, he⟩ := ih hm'
          exact ⟨e, by simp [runFrags, he]⟩
      | hit w =>
          rcases List.mem_cons.mp hm with heq | hm'
          · have hw : w = v := by injection heq.symm
            subst hw
            have := replFrag_block subRe p w hb hq.1 hq.2
            exact ⟨p.message.getD p.name, by simp [runFrags, this]⟩
          · cases hv : replFrag subRe p w with
            | error e => exact ⟨e, by simp [runFrags, hv]⟩
            | ok pr =>
                obtain ⟨r, of⟩ := pr
                obtain ⟨e, he⟩ := ih hm'
                exact ⟨e, by simp [runFrags, hv, he]⟩

theorem runFrags2_block_error (p : Rule) (hb : p.action = "block")
    (frags : List Frag) (v : String) (hm : Frag.hit v ∈ frags)
    (hg : isGuarded v = false) :
    ∃ e, runFrags2 p frags = .error e := by
  induction frags with
  | nil => cases hm
  | cons f rest ih =>
      cases f with
      | lit s =>
          have hm' : Frag.hit v ∈ rest := by
            cases hm with
            | tail _ h => exact h
          obtain ⟨e, he⟩ := ih hm'
          exact ⟨e, by simp [runFrags2, he]⟩
      | hit w =>
          rcases List.mem_cons.mp hm with heq | hm'
          · have hw : w = v := by injection heq.symm
            subst hw
            have := replFrag2_block p w hb hg
            exact ⟨p.name, by simp [runFrags2, this]⟩
          · cases hv : replFrag2 p w with
            | error e => exact ⟨e, by simp [runFrags2, hv]⟩
            | ok pr =>
                obtain ⟨r, of⟩ := pr
                obtain ⟨e, he⟩ := ih hm'
                exact ⟨e, by simp [runFrags2, hv, he]⟩

theorem applyPatternsGo_block_error (M : Matcher)
    (subRe : Rule → String → String) (hW : MatcherWF M) (r : Rule)
    (hb : r.action = "block") (v : String) (hq : QualHit r v)
    (L : List Rule) (t : String) (fs : List Finding)
    (hs : List.Sorted ruleLE L) (hr : r ∈ L) (hm : Frag.hit v ∈ M r t) :
    ∃ e, applyPatternsGo M subRe L t fs = .error e := by
  induction L generalizing fs with
  | nil => cases hr
  | cons p ps ih =>
      rcases List.mem_cons.mp hr with heq | hr'
      · subst heq
        obtain ⟨e, he⟩ := runFrags_block_error subRe r hb (M r t) v hm hq
        exact ⟨e, by simp [applyPatternsGo, he]⟩
      · have hple : ruleLE p r := (List.sorted_cons.mp hs).1 r hr'
        have hp0 : priority p.action = 0 := by
          have : priority r.action = 0 := by simp [priority, hb]
          have := hple
          unfold ruleLE at this
          omega
        have hpb : p.action = "block" := priority_eq_zero hp0
        cases hrun : runFrags subRe p (M p t) with
        | error e => exact ⟨e, by simp [applyPatternsGo, hrun]⟩
        | ok pr =>
            obtain ⟨t2, fs2⟩ := pr
            obtain ⟨ht2, hfs2⟩ := runFrags_block_ok subRe p hpb (M p t) t2 fs2 hrun
            rw [hW p t] at ht2
            subst ht2
            obtain ⟨e, he⟩ := ih (fs ++ fs2) (List.sorted_cons.mp hs).2 hr'
            exact ⟨e, by simp [applyPatternsGo, hrun, he]⟩

theorem applyPatterns2Go_block_error (M : Matcher) (hW : MatcherWF M)
    (r : Rule) (hb : r.action = "block") (v : String)
    (hg : isGuarded v = false) (L : List Rule) (t : String)
    (fs : List Finding) (hs : List.Sorted ruleLE L) (hr : r ∈ L)
    (hm : Frag.hit v ∈ M r t) :
    ∃ e, applyPatterns2Go M L t fs = .error e := by
  induction L generalizing fs with
  | nil => cases hr
  | cons p ps ih =>
      rcases List.mem_cons.mp hr with heq | hr'
      · subst heq
        obtain ⟨e, he⟩ := runFrags2_block_error r hb (M r t) v hm hg
        exact ⟨e, by simp [applyPatterns2Go, he]⟩
      · have hple : ruleLE p r := (List.sorted_cons.mp hs).1 r hr'
        have hp0 : priority p.action = 0 := by
          have : priority r.action = 0 := by simp [priority, hb]
          have := hple
          unfold ruleLE at this
          omega
        have hpb : p.action = "block" := priority_eq_zero hp0
        cases hrun : runFrags2 p (M p t) with
        | error e => exact ⟨e, by simp [applyPatterns2Go, hrun]⟩
        | ok pr =>
            obtain ⟨t2, fs2⟩ := pr
            obtain ⟨ht2, hfs2⟩ := runFrags2_block_ok p hpb (M p t) t2 fs2 hrun
            rw [hW p t] at ht2
            subst ht2
            obtain ⟨e, he⟩ := ih (fs ++ fs2) (List.sorted_cons.mp hs).2 hr'
            exact ⟨e, by simp [applyPatterns2Go, hrun, he]⟩

theorem apply_patterns_block_error (M : Matcher)
    (subRe : Rule → String → String) (hW : MatcherWF M) (rules : List Rule)
    (r : Rule) (hr : r ∈ rules) (hb : r.action = "block") (t v : String)
    (hm : Frag.hit v ∈ M r t) (hq : QualHit r v) :
    ∃ e, apply_patterns M subRe rules t = .error e := by
  refine applyPatternsGo_block_error M subRe hW r hb v hq _ t []
    (List.sorted_insertionSort ruleLE rules) ?_ hm
  exact (List.mem_insertionSort ruleLE).mpr hr

theorem apply_patterns2_block_error (M : Matcher) (hW : MatcherWF M)
    (rules : List Rule) (r : Rule) (hr : r ∈ rules)
    (hb : r.action = "block") (t v : String) (hm : Frag.hit v ∈ M r t)
    (hg : isGuarded v = false) :
    ∃ e, apply_patterns2 M rules t = .error e := by
  refine applyPatterns2Go_block_error M hW r hb v hg _ t []
    (List.sorted_insertionSort ruleLE rules) ?_ hm
  exact (List.mem_insertionSort ruleLE).mpr hr

theorem applyJudgeGo_block (t : String) (L : List Judgement)
    (out : List Finding) (j : Judgement) (hj : j ∈ L)
    (hb : j.action = "block") :
    ∃ e, applyJudgeGo t L out = .error e := by
  induction L generalizing t out with
  | nil => cases hj
  | cons k rest ih =>
      by_cases hk : k.action = "block"
      · exact ⟨"모델 판정 차단: " ++ k.label, by simp [applyJudgeGo, hk]⟩
      · have hj' : j ∈ rest := by
          rcases List.mem_cons.mp hj with heq | h
          · exact absurd (heq ▸ hb) hk
          · exact h
        obtain ⟨e, he⟩ := ih
          (pyPrefix t k.span.1 ++ k.replacement.getD ("[" ++ k.label ++ "]")
            ++ pySuffix t k.span.2)
          (out ++ [⟨k.label, pySlice t k.span.1 k.span.2, k.action⟩]) hj'
        exact ⟨e, by simp [applyJudgeGo, hk, he]⟩

theorem apply_gemini_judgement_block (t : String) (js : List Judgement)
    (j : Judgement) (hj : j ∈ js) (hb : j.action = "block") :
    ∃ e, apply_gemini_judgement t js = .error e := by
  have hne : js.isEmpty = false := by
    cases js with
    | nil => cases hj
    | cons a l => rfl
  have hjs : j ∈ sortJudgements js :=
    (List.mem_insertionSort judgeGE).mpr hj
  obtain ⟨e, he⟩ := applyJudgeGo_block t (sortJudgements js) [] j hjs hb
  exact ⟨e, by simp [apply_gemini_judgement, hne, he]⟩

theorem applyJudgeGo_mask (L : List Judgement)
    (hm : ∀ j ∈ L, j.action = "mask") :
    ∀ (t : String) (out : List Finding), ∃ t2 fins,
      applyJudgeGo t L out = .ok (t2, fins) ∧
      fins.map Finding.name = L.reverse.map Judgement.label
        ++ out.reverse.map Finding.name ∧
      fins.map Finding.action = L.reverse.map Judgement.action
        ++ out.reverse.map Finding.action := by
  induction L with
  | nil =>
      intro t out
      exact ⟨t, out.reverse, rfl, by simp, by simp⟩
  | cons j rest ih =>
      intro t out
      have hjm : j.action = "mask" := hm j (List.mem_cons_self _ _)
      have hrest : ∀ k ∈ rest, k.action = "mask" :=
        fun k hk => hm k (List.mem_cons_of_mem _ hk)
      obtain ⟨t2, fins, h1, h2, h3⟩ := ih hrest
        (pyPrefix t j.span.1 ++ j.replacement.getD ("[" ++ j.label ++ "]")
          ++ pySuffix t j.span.2)
        (out ++ [⟨j.label, pySlice t j.span.1 j.span.2, j.action⟩])
      have hne : ¬(j.action = "block") := by simp [hjm]
      refine ⟨t2, fins, ?_, ?_, ?_⟩
      · simp only [applyJudgeGo]
        rw [if_neg hne]
        exact h1
      · rw [h2]; simp [hjm]
      · rw [h3]; simp [hjm]

theorem pyIdx_nat (len k : Nat) (h : k ≤ len) : pyIdx len (k : Int) = k := by
  unfold pyIdx
  simp [h]

theorem pyIdx_strlen (t : String) (k : Nat) (h : k ≤ t.data.length) :
    pyIdx t.length (k : Int) = k :=
  pyIdx_nat t.length k h

theorem data_splice (t rep : String) (s e : Nat) (hse : s ≤ e)
    (he : e ≤ t.data.length) :
    (pyPrefix t (s : Int) ++ rep ++ pySuffix t (e : Int)).data
      = t.data.take s ++ rep.data ++ t.data.drop e := by
  have hs : s ≤ t.data.length := le_trans hse he
  simp [String.data_append, pyPrefix, pySuffix, List.asString,
    pyIdx_strlen t s hs, pyIdx_strlen t e he]

theorem length_splice (t rep : String) (s e : Nat) (hse : s ≤ e)
    (he : e ≤ t.data.length) :
    (pyPrefix t (s : Int) ++ rep ++ pySuffix t (e : Int)).data.length
      = s + rep.data.length + (t.data.length - e) := by
  have hs : s ≤ t.data.length := le_trans hse he
  rw [data_splice t rep s e hse he]
  have h0 : t.data.length = t.length := rfl
  have h1 : rep.data.length = rep.length := rfl
  simp [List.length_take, List.length_drop]
  omega

theorem pySlice_nat (t : String) (s e : Nat) (hs : s ≤ t.data.length)
    (he : e ≤ t.data.length) :
    pySlice t (s : Int) (e : Int)
      = List.asString ((t.data.take e).drop s) := by
  simp [pySlice, pySliceL, pyIdx_strlen t s hs, pyIdx_strlen t e he]

theorem pySlice_splice_left (t rep : String) (s1 e1 s2 e2 : Nat)
    (h12 : e1 ≤ s2) (hs2 : s2 ≤ e2) (he2 : e2 ≤ t.data.length)
    (hs1 : s1 ≤ e1) :
    pySlice (pyPrefix t (s2 : Int) ++ rep ++ pySuffix t (e2 : Int))
        (s1 : Int) (e1 : Int)
      = pySlice t (s1 : Int) (e1 : Int) := by
  set t2 := pyPrefix t (s2 : Int) ++ rep ++ pySuffix t (e2 : Int) with ht2
  have hL : t.data.length = t.length := rfl
  have hR : rep.data.length = rep.length := rfl
  have hL2 : t2.data.length = t2.length := rfl
  have hs2n : s2 ≤ t.data.length := le_trans hs2 he2
  have hlen : t2.data.length = s2 + rep.data.length + (t.data.length - e2) :=
    length_splice t rep s2 e2 hs2 he2
  have he1t2 : e1 ≤ t2.data.length := by omega
  have hs1t2 : s1 ≤ t2.data.length := by omega
  rw [pySlice_nat t2 s1 e1 hs1t2 he1t2,
      pySlice_nat t s1 e1 (by omega) (by omega)]
  congr 1
  have hdata : t2.data = t.data.take s2 ++ (rep.data ++ t.data.drop e2) := by
    rw [ht2, data_splice t rep s2 e2 hs2 he2, List.append_assoc]
  rw [hdata,
      List.take_append_of_le_length
        (by simp [List.length_take]; omega),
      List.take_take, Nat.min_eq_left h12]

theorem pyPrefix_splice (t rep : String) (s1 s2 e2 : Nat) (h12 : s1 ≤ s2)
    (hs2 : s2 ≤ e2) (he2 : e2 ≤ t.data.length) :
    pyPrefix (pyPrefix t (s2 : Int) ++ rep ++ pySuffix t (e2 : Int)) (s1 : Int)
      = pyPrefix t (s1 : Int) := by
  set t2 := pyPrefix t (s2 : Int) ++ rep ++ pySuffix t (e2 : Int) with ht2
  have hL : t.data.length = t.length := rfl
  have hR : rep.data.length = rep.length := rfl
  have hL2 : t2.data.length = t2.length := rfl
  have hs2n : s2 ≤ t.data.length := le_trans hs2 he2
  have hlen : t2.data.length = s2 + rep.data.length + (t.data.length - e2) :=
    length_splice t rep s2 e2 hs2 he2
  have hdata : t2.data = t.data.take s2 ++ (rep.data ++ t.data.drop e2) := by
    rw [ht2, data_splice t rep s2 e2 hs2 he2, List.append_assoc]
  unfold pyPrefix
  congr 1
  rw [pyIdx_nat _ _ (by omega), pyIdx_nat _ _ (by omega), hdata,
      List.take_append_of_le_length
        (by simp [List.length_take]; omega),
      List.take_take, Nat.min_eq_left h12]

theorem pySuffix_splice (t rep : String) (e1 s2 e2 : Nat) (h12 : e1 ≤ s2)
    (hs2 : s2 ≤ e2) (he2 : e2 ≤ t.data.length) :
    pySuffix (pyPrefix t (s2 : Int) ++ rep ++ pySuffix t (e2 : Int)) (e1 : Int)
      = pySlice t (e1 : Int) (s2 : Int) ++ rep ++ pySuffix t (e2 : Int) := by
  set t2 := pyPrefix t (s2 : Int) ++ rep ++ pySuffix t (e2 : Int) with ht2
  have hL : t.data.length = t.length := rfl
  have hR : rep.data.length = rep.length := rfl
  have hL2 : t2.data.length = t2.length := rfl
  have hs2n : s2 ≤ t.data.length := le_trans hs2 he2
  have hlen : t2.data.length = s2 + rep.data.length + (t.data.length - e2) :=
    length_splice t rep s2 e2 hs2 he2
  have hdata : t2.data = t.data.take s2 ++ (rep.data ++ t.data.drop e2) := by
    rw [ht2, data_splice t rep s2 e2 hs2 he2, List.append_assoc]
  apply String.ext
  rw [String.data_append, String.data_append]
  unfold pySuffix
  show t2.data.drop (pyIdx t2.data.length (e1 : Int))
    = (pySlice t (e1 : Int) (s2 : Int)).data ++ rep.data
      ++ (t.data.drop (pyIdx t.data.length (e2 : Int)))
  rw [pyIdx_nat _ _ (by omega), pyIdx_nat _ _ he2, hdata,
      List.drop_append_of_le_length
        (by simp [List.length_take]; omega),
      pySlice_nat t e1 s2 (by omega) hs2n]
  show (t.data.take s2).drop e1 ++ (rep.data ++ t.data.drop e2)
    = (t.data.take s2).drop e1 ++ rep.data ++ t.data.drop e2
  rw [List.append_assoc]

/-! ### Concrete fixtures for witnesses and counterexamples -/

/-- A matcher whose every text is one whole-string match. -/
def hitAll : Matcher := fun _ t => [Frag.hit t]

/-- A matcher that never matches. -/
def litAll : Matcher := fun _ t => [Frag.lit t]

/-- Identity backreference substituter (no claim exercises backreferences). -/
def idSub : Rule → String → String := fun _ v => v

theorem hitAll_wf : MatcherWF hitAll := by
  intro r t
  show t ++ "" = t
  exact String.append_empty t

theorem litAll_wf : MatcherWF litAll := by
  intro r t
  show t ++ "" = t
  exact String.append_empty t

/-- A block-action rule with no validator and no replacement. -/
def ssnRule : Rule := ⟨"SSN", "block", none, none, none⟩

/-- A mask-action rule with a guard-set replacement token. -/
def phoneRule : Rule := ⟨"PHONE", "mask", some "[PHONE]", none, none⟩

/-- A mask-action rule gated by the LUHN validator. -/
def cardRule : Rule := ⟨"CARD", "mask", some "[CARD]", some "LUHN", none⟩

/-- Tests whether the `Except` is an error (the Python call raised). -/
def isErr {α : Type} : Except String α → Bool
  | .error _ => true
  | .ok _ => false

/-- The findings of a non-raising redactor call (`[]` on a raise). -/
def redactFins : Except String (String × List Finding) → List Finding
  | .error _ => []
  | .ok (_, fs) => fs

/-! ### Claims -/

/-- C4: a matched fragment that already contains a recognized guard token
(`[PHONE]`, `[CARD]`, …) is never re-redacted — both `_repl` callbacks
return it unchanged with no finding and no block — and consequently a scan
of a text all of whose matches are guard-marked changes nothing, records
nothing and blocks nothing, in both `apply_patterns` versions: a second
scan of already-sanitized text produces no further changes. -/
theorem claim_C4_guard_idempotent :
    (∀ (subRe : Rule → String → String) (p : Rule) (v : String),
      isGuarded v = true → replFrag subRe p v = .ok (v, none)) ∧
    (∀ (p : Rule) (v : String),
      isGuarded v = true → replFrag2 p v = .ok (v, none)) ∧
    (∀ (M : Matcher) (subRe : Rule → String → String) (rules : List Rule)
        (text : String), MatcherWF M →
      (∀ r ∈ rules, ∀ v, Frag.hit v ∈ M r text → isGuarded v = true) →
      apply_patterns M subRe rules text = .ok (text, []) ∧
      apply_patterns2 M rules text = .ok (text, [])) := by
  refine ⟨replFrag_guarded, replFrag2_guarded, ?_⟩
  intro M subRe rules text hW h
  constructor
  · exact apply_patterns_keep M subRe rules text hW
      (fun r hr v hv => replFrag_guarded subRe r v (h r hr v hv))
  · exact apply_patterns2_keep M rules text hW
      (fun r hr v hv => replFrag2_guarded r v (h r hr v hv))

theorem claim_C4_witness :
    replFrag idSub phoneRule "call [PHONE] now" = .ok ("call [PHONE] now", none) ∧
    apply_patterns hitAll idSub [phoneRule] "a [EMAIL] b" = .ok ("a [EMAIL] b", []) ∧
    apply_patterns2 hitAll [phoneRule] "a [EMAIL] b" = .ok ("a [EMAIL] b", []) := by
  have h := claim_C4_guard_idempotent
  refine ⟨h.1 idSub phoneRule _ (by decide), ?_, ?_⟩
  · refine (h.2.2 hitAll idSub [phoneRule] "a [EMAIL] b" hitAll_wf ?_).1
    intro r hr v hv
    have : v = "a [EMAIL] b" := by
      simp [hitAll] at hv
      exact hv
    subst this
    decide
  · refine (h.2.2 hitAll idSub [phoneRule] "a [EMAIL] b" hitAll_wf ?_).2
    intro r hr v hv
    have : v = "a [EMAIL] b" := by
      simp [hitAll] at hv
      exact hv
    subst this
    decide

/-- C5: `luhn_ok` computes exactly the spec's checksum (strip non-digits,
require 13–19 digits, double every second digit from the rightmost with
the 9-subtraction, pass iff the total is divisible by 10);
`"4111111111111111"` passes and `"4111111111111112"` fails; and a match
whose configured validator fails is left unchanged and recorded as no
finding, both per fragment and for a whole scan whose only qualifying
rule requires validation. -/
theorem claim_C5_luhn :
    (∀ s : String, luhn_ok s = luhnSpec s) ∧
    luhn_ok "4111111111111111" = true ∧
    luhn_ok "4111111111111112" = false ∧
    (∀ (subRe : Rule → String → String) (p : Rule) (v : String),
      p.validator = some "LUHN" → luhn_ok v = false →
      replFrag subRe p v = .ok (v, none)) ∧
    (∀ (M : Matcher) (subRe : Rule → String → String) (p : Rule)
        (text : String), MatcherWF M → p.validator = some "LUHN" →
      (∀ v, Frag.hit v ∈ M p text → luhn_ok v = false) →
      apply_patterns M subRe [p] text = .ok (text, [])) := by
  refine ⟨luhn_ok_eq_luhnSpec, by decide, by decide, replFrag_luhn_fail, ?_⟩
  intro M subRe p text hW hval h
  refine apply_patterns_keep M subRe [p] text hW ?_
  intro r hr v hv
  have : r = p := by
    rcases List.mem_cons.mp hr with h1 | h1
    · exact h1
    · cases h1
  subst this
  exact replFrag_luhn_fail subRe r v hval (h v hv)

theorem claim_C5_witness :
    replFrag idSub cardRule "4111111111111112" = .ok ("4111111111111112", none) ∧
    apply_patterns hitAll idSub [cardRule] "4111111111111112"
      = .ok ("4111111111111112", []) := by
  have h := claim_C5_luhn
  refine ⟨h.2.2.2.1 idSub cardRule _ rfl (by decide), ?_⟩
  refine h.2.2.2.2 hitAll idSub cardRule "4111111111111112" hitAll_wf rfl ?_
  intro v hv
  have : v = "4111111111111112" := by
    simp [hitAll] at hv
    exact hv
  subst this
  decide

/-- C8: whatever reaches `judge_sensitive_with_gemini` — a raised external
call, content whose JSON extraction or parse fails (including empty
content), or parsed content that is not an array — produces the empty
judgement list; the `try/except` body never lets an error escape. -/
theorem claim_C8_fail_open :
    judge_sensitive .callFailure = [] ∧
    (∀ e : String, judge_sensitive (.content (.error e)) = []) ∧
    (∀ v : JValue, (∀ xs, v ≠ JValue.arr xs) →
      judge_sensitive (.content (.ok v)) = []) := by
  refine ⟨rfl, fun e => rfl, ?_⟩
  intro v h
  cases v with
  | arr xs => exact absurd rfl (h xs)
  | null => rfl
  | bool b => rfl
  | int n => rfl
  | str s => rfl
  | obj fields => rfl

theorem claim_C8_witness :
    judge_sensitive (.content (.error "Expecting value: line 1 column 1")) = [] ∧
    judge_sensitive (.content (.ok (.str "I cannot share that"))) = [] := by
  have h := claim_C8_fail_open
  exact ⟨h.2.1 _, h.2.2 _ (fun xs hx => by cases hx)⟩

/-- C1: if the last user message carries a non-guarded, validator-passing
hit of a block-action rule, the test_gemini `/chat` handler answers with
the blocked 400 response and makes no external call at all — in
particular the generation capability is never invoked. -/
theorem claim_C1_block_no_generation (M : Matcher)
    (subRe : Rule → String → String) (judge : String → List Judgement)
    (send : List Message → String → String) (modelId : String)
    (rules : List Rule) (messages : List Message) (idx : Nat) (r : Rule)
    (v : String) (hW : MatcherWF M) (hidx : lastUserIdx messages = some idx)
    (hr : r ∈ rules) (hb : r.action = "block")
    (hm : Frag.hit v ∈ M r (msgContent messages idx)) (hq : QualHit r v) :
    (chatTG M subRe judge send modelId rules messages).1.isBlocked = true ∧
    (chatTG M subRe judge send modelId rules messages).2 = [] := by
  obtain ⟨e, he⟩ :=
    apply_patterns_block_error M subRe hW rules r hr hb
      (msgContent messages idx) v hm hq
  simp [chatTG, hidx, he, ChatOutcome.isBlocked]

theorem claim_C1_witness :
    (chatTG hitAll idSub (fun _ => []) (fun _ _ => "resp") "gemini-2.5-pro"
      [ssnRule] [⟨"user", "123-45-6789"⟩]).1.isBlocked = true ∧
    (chatTG hitAll idSub (fun _ => []) (fun _ _ => "resp") "gemini-2.5-pro"
      [ssnRule] [⟨"user", "123-45-6789"⟩]).2 = [] := by
  refine claim_C1_block_no_generation hitAll idSub (fun _ => [])
    (fun _ _ => "resp") "gemini-2.5-pro" [ssnRule] [⟨"user", "123-45-6789"⟩]
    0 ssnRule "123-45-6789" hitAll_wf (by decide) (by decide) rfl
    (by decide) ?_
  exact ⟨by decide, fun h => by cases h⟩

/-- C2 counterexample: with a mask judgement at start 20 sorted before a
block judgement at start 5, `apply_gemini_judgement` does raise the block,
but the loop has already applied one span splice to its local copy before
detecting the block — not zero as the claim states. -/
theorem claim_C2_counterexample :
    apply_gemini_judgement "0123456789012345678901234567890"
        [⟨(20, 24), "A", "mask", none⟩, ⟨(5, 8), "B", "block", none⟩]
      = .error "모델 판정 차단: B" ∧
    spliceCount "0123456789012345678901234567890"
        [⟨(20, 24), "A", "mask", none⟩, ⟨(5, 8), "B", "block", none⟩]
      = 1 := by
  exact ⟨rfl, rfl⟩

/-- C2 amended: whenever any judgement carries a block action,
`apply_gemini_judgement` raises (so no edited text and no findings are
ever returned to the caller); the splices it may have applied to its
local copy before meeting the block entry are discarded with the raise. -/
theorem claim_C2_block_raises (text : String) (js : List Judgement)
    (j : Judgement) (hj : j ∈ js) (hb : j.action = "block") :
    isErr (apply_gemini_judgement text js) = true := by
  obtain ⟨e, he⟩ := apply_gemini_judgement_block text js j hj hb
  simp [he, isErr]

theorem claim_C2_witness :
    isErr (apply_gemini_judgement "abcdef" [⟨(1, 3), "X", "block", none⟩])
      = true :=
  claim_C2_block_raises "abcdef" [⟨(1, 3), "X", "block", none⟩]
    ⟨(1, 3), "X", "block", none⟩ (by decide) rfl

/-- C7 counterexample: a conversation whose last user entry is whitespace
only is not rejected by the code2 pipeline: it runs both filter stages
and the external classification call, after which `call_gemini_generate`
short-circuits to "(empty user message)" without reaching the generation
capability, and the request ends in a success response carrying the
output-filtered placeholder — not in an input error. -/
theorem claim_C7_counterexample :
    chat2 litAll (fun _ => []) (fun _ _ => "ok") "gemini-2.5-pro" []
        [⟨"user", "   "⟩]
      = (.success "(empty user message)" "   " "   " [] [] [],
         [.classify "   "]) := by
  rfl

/-- C7 amended: the input-error rejection exists only for the missing-user
case and only in code2 — `chat2` returns its 400 before any filtering and
before any external call when no entry has role "user", while the
test_gemini handler crashes on an unguarded `messages[None]`.  A
conversation that does have a user entry is never answered with the input
error, even when its content is empty after trimming: both filter stages
and the classification call still run, and only `call_gemini_generate`'s
own short-circuit keeps the generation capability uninvoked (the external
trace then holds nothing but the classify entry). -/
theorem claim_C7_input_error (M : Matcher) (subRe : Rule → String → String)
    (judge : String → List Judgement) (send : List Message → String → String)
    (modelId : String) (rules : List Rule) (messages : List Message) :
    (lastUserIdx messages = none →
      chat2 M judge send modelId rules messages
        = (.inputError "사용자 메시지가 없습니다.", []) ∧
      (chatTG M subRe judge send modelId rules messages).1.isCrash = true ∧
      (chatTG M subRe judge send modelId rules messages).2 = []) ∧
    (∀ idx, lastUserIdx messages = some idx →
      (chat2 M judge send modelId rules messages).1.isInputErr = false) ∧
    (∀ idx s1 f1 s2 f2, lastUserIdx messages = some idx →
      apply_patterns2 M rules (msgContent messages idx) = .ok (s1, f1) →
      apply_gemini_judgement s1 (judge s1) = .ok (s2, f2) →
      realModel modelId = true → pyStrip s2 = "" →
      (chat2 M judge send modelId rules messages).2 = [.classify s1]) := by
  refine ⟨?_, ?_, ?_⟩
  · intro hnone
    refine ⟨by simp [chat2, hnone], ?_, ?_⟩
    · simp [chatTG, hnone, ChatOutcome.isCrash]
    · simp [chatTG, hnone]
  · intro idx hidx
    simp only [chat2, hidx]
    split
    · rfl
    · split
      · rfl
      · split
        · rfl
        · rfl
  · intro idx s1 f1 s2 f2 hidx hp1 hp2 hreal hstrip
    have hlt := lastUserIdx_lt messages idx hidx
    have hset := lastUserIdx_set messages idx s2 hidx
    have hmc := msgContent_set messages idx s2 hlt
    have hcall := call_gemini_generate_emptyUser send modelId
      (messages.set idx ⟨"user", s2⟩) idx hreal hset (by rw [hmc]; exact hstrip)
    simp only [chat2, hidx, hp1, hp2, hcall]
    split
    · rfl
    · rfl

theorem claim_C7_witness :
    (chat2 litAll (fun _ => []) (fun _ _ => "ok") "gemini-2.5-pro" []
        [⟨"assistant", "hello"⟩]
      = (.inputError "사용자 메시지가 없습니다.", [])) ∧
    (chat2 litAll (fun _ => []) (fun _ _ => "ok") "gemini-2.5-pro" []
        [⟨"user", " "⟩]).1.isInputErr = false ∧
    (chat2 litAll (fun _ => []) (fun _ _ => "ok") "gemini-2.5-pro" []
        [⟨"user", " "⟩]).2 = [.classify " "] := by
  refine ⟨?_, ?_, ?_⟩
  · exact ((claim_C7_input_error litAll idSub (fun _ => []) (fun _ _ => "ok")
      "gemini-2.5-pro" [] [⟨"assistant", "hello"⟩]).1 (by decide)).1
  · exact (claim_C7_input_error litAll idSub (fun _ => []) (fun _ _ => "ok")
      "gemini-2.5-pro" [] [⟨"user", " "⟩]).2.1 0 (by decide)
  · exact (claim_C7_input_error litAll idSub (fun _ => []) (fun _ _ => "ok")
      "gemini-2.5-pro" [] [⟨"user", " "⟩]).2.2 0 " " [] " " [] (by decide)
      rfl rfl (by decide) rfl

/-- C9 counterexample: an element whose span is the descending pair
`[5, 2]` passes the code's span check (`isinstance list`, length two, all
ints — ascending order is never tested) and is retained as a judgement,
contradicting the claim that retained elements have ascending spans. -/
theorem claim_C9_counterexample :
    judge_sensitive (.content (.ok (.arr [.obj
        [("span", .arr [.int 5, .int 2]), ("label", .str "NAME"),
         ("action", .str "mask")]])))
      = [⟨(5, 2), "NAME", "mask", none⟩] := by
  rfl

/-- C9 amended: each element retained from a parsed classifier array is an
object whose span is a two-element integer list (ascending order is not
enforced); its label defaults to the generic "ETC" when absent, its
action is "block" only when the element explicitly says "block" and
"mask" otherwise, and elements failing the object/span requirements are
dropped. -/
theorem claim_C9_normalisation :
    (∀ (fields : List (String × JValue)) (a b : Int),
      fields.lookup "span" = some (.arr [.int a, .int b]) →
      normElem (.obj fields)
        = some ⟨(a, b), labelOf fields, actionOf fields, none⟩) ∧
    (∀ fields : List (String × JValue), fields.lookup "span" = none →
      normElem (.obj fields) = none) ∧
    (∀ s : String, normElem (.str s) = none) ∧
    (∀ fields : List (String × JValue), fields.lookup "label" = none →
      labelOf fields = "ETC") ∧
    (∀ fields : List (String × JValue),
      (∀ s, fields.lookup "action" = some (.str s) → s ≠ "block") →
      actionOf fields = "mask") ∧
    (∀ fields : List (String × JValue),
      fields.lookup "action" = some (.str "block") →
      actionOf fields = "block") ∧
    (∀ xs : List JValue,
      judge_sensitive (.content (.ok (.arr xs))) = xs.filterMap normElem) := by
  refine ⟨?_, ?_, fun s => rfl, ?_, ?_, ?_, fun xs => rfl⟩
  · intro fields a b h
    simp [normElem, h]
  · intro fields h
    simp [normElem, h]
  · intro fields h
    simp [labelOf, h]
  · intro fields h
    unfold actionOf
    cases hl : fields.lookup "action" with
    | none => rfl
    | some v =>
        cases v with
        | str sv => simp [h sv hl]
        | null => rfl
        | bool b => rfl
        | int n => rfl
        | arr xs => rfl
        | obj f2 => rfl
  · intro fields h
    simp [actionOf, h]

theorem claim_C9_witness :
    normElem (.obj [("span", .arr [.int 3, .int 7])])
      = some ⟨(3, 7), "ETC", "mask", none⟩ ∧
    normElem (.obj [("label", .str "NAME")]) = none := by
  have h := claim_C9_normalisation
  constructor
  · rw [h.1 [("span", .arr [.int 3, .int 7])] 3 7 rfl,
        h.2.2.2.1 [("span", .arr [.int 3, .int 7])] rfl,
        h.2.2.2.2.1 [("span", .arr [.int 3, .int 7])] (fun s hs => by cases hs)]
  · exact h.2.1 [("label", .str "NAME")] rfl

/-- A matcher hitting exactly the text "TOP-SECRET" (e.g. a keyword rule
matching generated output but not the user's input). -/
def outOnlyM : Matcher := fun _ t =>
  if t = "TOP-SECRET" then [Frag.hit t] else [Frag.lit t]

/-- A block rule used for the output-filter scenarios. -/
def secretRule : Rule := ⟨"SECRET", "block", none, none, none⟩

theorem outOnlyM_wf : MatcherWF outOnlyM := by
  intro r t
  unfold outOnlyM
  by_cases h : t = "TOP-SECRET" <;>
    simp [h, renderFrags, String.append_empty]

/-- C3 counterexample: when the output-stage scan of the test_gemini
pipeline hits a block-action rule, the handler does not return a Blocked
outcome — the `ValueError` escapes (the output-filter call sits outside
every `try`), and no outcome of either pipeline carries a stage marker. -/
theorem claim_C3_counterexample :
    chatTG outOnlyM idSub (fun _ => []) (fun _ _ => "TOP-SECRET")
        "gemini-2.5-pro" [secretRule] [⟨"user", "hi"⟩]
      = (.crash "SECRET", [.classify "hi", .generate [] "hi"]) := by
  rfl

/-- C3 amended: when the output-stage scan hits a non-guarded (and, for
test_gemini, validator-passing) block-action match, the unsanitized
generated content is never returned to the caller: the code2 pipeline
answers with its generic blocked 400 (the same response used for input
blocks — no stage marker), while the test_gemini pipeline lets the
exception escape unhandled; in both, the response carries only the block
reason, although generation has already been invoked (a real model id and
a non-empty sanitized user turn, so `call_gemini_generate` reached
`send_message`, as the recorded generate call shows). -/
theorem claim_C3_output_block :
    (∀ (M : Matcher) (subRe : Rule → String → String)
        (judge : String → List Judgement)
        (send : List Message → String → String) (modelId : String)
        (rules : List Rule) (messages : List Message) (idx : Nat)
        (s1 s2 : String) (f1 f2 : List Finding) (r : Rule) (v : String),
      MatcherWF M → lastUserIdx messages = some idx →
      apply_patterns M subRe rules (msgContent messages idx) = .ok (s1, f1) →
      apply_gemini_judgement s1 (judge s1) = .ok (s2, f2) →
      realModel modelId = true → pyStrip s2 ≠ "" →
      r ∈ rules → r.action = "block" →
      Frag.hit v ∈ M r (respOf (send
        (historyOf (messages.set idx ⟨"user", s2⟩) idx) (pyStrip s2))) →
      QualHit r v →
      (chatTG M subRe judge send modelId rules messages).1.isCrash = true ∧
      (chatTG M subRe judge send modelId rules messages).2
        = [.classify s1,
           .generate (historyOf (messages.set idx ⟨"user", s2⟩) idx)
             (pyStrip s2)]) ∧
    (∀ (M : Matcher) (judge : String → List Judgement)
        (send : List Message → String → String) (modelId : String)
        (rules : List Rule) (messages : List Message) (idx : Nat)
        (s1 s2 : String) (f1 f2 : List Finding) (r : Rule) (v : String),
      MatcherWF M → lastUserIdx messages = some idx →
      apply_patterns2 M rules (msgContent messages idx) = .ok (s1, f1) →
      apply_gemini_judgement s1 (judge s1) = .ok (s2, f2) →
      realModel modelId = true → pyStrip s2 ≠ "" →
      r ∈ rules → r.action = "block" →
      Frag.hit v ∈ M r (respOf (send
        (historyOf (messages.set idx ⟨"user", s2⟩) idx) (pyStrip s2))) →
      isGuarded v = false →
      (chat2 M judge send modelId rules messages).1.isBlocked = true ∧
      (chat2 M judge send modelId rules messages).2
        = [.classify s1,
           .generate (historyOf (messages.set idx ⟨"user", s2⟩) idx)
             (pyStrip s2)]) := by
  constructor
  · intro M subRe judge send modelId rules messages idx s1 s2 f1 f2 r v
      hW hidx hp1 hp2 hreal htrim hr hb hm hq
    have hlt := lastUserIdx_lt messages idx hidx
    have hset := lastUserIdx_set messages idx s2 hidx
    have hmc := msgContent_set messages idx s2 hlt
    have hcall := call_gemini_generate_real send modelId
      (messages.set idx ⟨"user", s2⟩) idx hreal hset
      (by rw [hmc]; exact htrim)
    rw [hmc] at hcall
    obtain ⟨e, he⟩ := apply_patterns_block_error M subRe hW rules r hr hb
      (respOf (send (historyOf (messages.set idx ⟨"user", s2⟩) idx)
        (pyStrip s2))) v hm hq
    simp [chatTG, hidx, hp1, hp2, hcall, he, ChatOutcome.isCrash]
  · intro M judge send modelId rules messages idx s1 s2 f1 f2 r v
      hW hidx hp1 hp2 hreal htrim hr hb hm hg
    have hlt := lastUserIdx_lt messages idx hidx
    have hset := lastUserIdx_set messages idx s2 hidx
    have hmc := msgContent_set messages idx s2 hlt
    have hcall := call_gemini_generate_real send modelId
      (messages.set idx ⟨"user", s2⟩) idx hreal hset
      (by rw [hmc]; exact htrim)
    rw [hmc] at hcall
    obtain ⟨e, he⟩ := apply_patterns2_block_error M hW rules r hr hb
      (respOf (send (historyOf (messages.set idx ⟨"user", s2⟩) idx)
        (pyStrip s2))) v hm hg
    simp [chat2, hidx, hp1, hp2, hcall, he, ChatOutcome.isBlocked]

theorem claim_C3_witness :
    ((chatTG outOnlyM idSub (fun _ => []) (fun _ _ => "TOP-SECRET")
        "gemini-2.5-pro" [secretRule] [⟨"user", "hi"⟩]).1.isCrash = true ∧
      (chatTG outOnlyM idSub (fun _ => []) (fun _ _ => "TOP-SECRET")
        "gemini-2.5-pro" [secretRule] [⟨"user", "hi"⟩]).2
        = [.classify "hi", .generate [] "hi"]) ∧
    ((chat2 outOnlyM (fun _ => []) (fun _ _ => "TOP-SECRET")
        "gemini-2.5-pro" [secretRule] [⟨"user", "hi"⟩]).1.isBlocked = true ∧
      (chat2 outOnlyM (fun _ => []) (fun _ _ => "TOP-SECRET")
        "gemini-2.5-pro" [secretRule] [⟨"user", "hi"⟩]).2
        = [.classify "hi", .generate [] "hi"]) := by
  have h := claim_C3_output_block
  constructor
  · refine h.1 outOnlyM idSub (fun _ => []) (fun _ _ => "TOP-SECRET")
      "gemini-2.5-pro" [secretRule] [⟨"user", "hi"⟩] 0 "hi" "hi" [] []
      secretRule "TOP-SECRET" outOnlyM_wf (by decide) rfl rfl (by decide)
      (by decide) (by decide) rfl (by decide)
      ⟨by decide, fun hx => by cases hx⟩
  · refine h.2 outOnlyM (fun _ => []) (fun _ _ => "TOP-SECRET")
      "gemini-2.5-pro" [secretRule] [⟨"user", "hi"⟩] 0 "hi" "hi" [] []
      secretRule "TOP-SECRET" outOnlyM_wf (by decide) rfl rfl (by decide)
      (by decide) (by decide) rfl (by decide) (by decide)

/-- C10: for mask-only judgement lists with pairwise-distinct start
offsets, `apply_gemini_judgement` succeeds and the findings come out in
ascending start-offset order (the original-text reading order): the list
of finding names/actions equals the label/action sequence of the
descending-sorted judgement list reversed, and that reversed list is
strictly ascending in start offset — even though the edits were applied
in descending order. -/
theorem claim_C10_findings_order (t : String) (js : List Judgement)
    (hm : ∀ j ∈ js, j.action = "mask")
    (hd : js.Pairwise (fun a b => a.span.1 ≠ b.span.1)) :
    isErr (apply_gemini_judgement t js) = false ∧
    (redactFins (apply_gemini_judgement t js)).map Finding.name
      = ((sortJudgements js).reverse).map Judgement.label ∧
    (redactFins (apply_gemini_judgement t js)).map Finding.action
      = ((sortJudgements js).reverse).map Judgement.action ∧
    ((sortJudgements js).reverse).Pairwise
      (fun a b => a.span.1 < b.span.1) := by
  have hs : List.Sorted judgeGE (sortJudgements js) :=
    List.sorted_insertionSort judgeGE js
  have hperm : (sortJudgements js).Perm js := List.perm_insertionSort judgeGE js
  have hne2 : (sortJudgements js).Pairwise (fun a b => a.span.1 ≠ b.span.1) :=
    (List.Perm.pairwise_iff (fun h => h.symm) hperm).mpr hd
  have hlt : (sortJudgements js).Pairwise (fun a b => b.span.1 < a.span.1) :=
    (List.Pairwise.and hs hne2).imp
      (fun hab => lt_of_le_of_ne hab.1 (Ne.symm hab.2))
  have hasc : ((sortJudgements js).reverse).Pairwise
      (fun a b => a.span.1 < b.span.1) :=
    List.pairwise_reverse.mpr hlt
  have key : isErr (apply_gemini_judgement t js) = false ∧
      (redactFins (apply_gemini_judgement t js)).map Finding.name
        = ((sortJudgements js).reverse).map Judgement.label ∧
      (redactFins (apply_gemini_judgement t js)).map Finding.action
        = ((sortJudgements js).reverse).map Judgement.action := by
    cases js with
    | nil =>
        refine ⟨rfl, ?_, ?_⟩ <;>
          simp [apply_gemini_judgement, sortJudgements, redactFins]
    | cons j0 rest =>
        have hne : (j0 :: rest).isEmpty = false := rfl
        have hmsort : ∀ j ∈ sortJudgements (j0 :: rest), j.action = "mask" :=
          fun j hj => hm j ((List.mem_insertionSort judgeGE).mp hj)
        obtain ⟨t2, fins, h1, h2, h3⟩ :=
          applyJudgeGo_mask (sortJudgements (j0 :: rest)) hmsort t []
        have happ : apply_gemini_judgement t (j0 :: rest) = .ok (t2, fins) := by
          simp [apply_gemini_judgement, hne, h1]
        refine ⟨by simp [happ, isErr], ?_, ?_⟩
        · rw [happ]
          simpa [redactFins] using h2
        · rw [happ]
          simpa [redactFins] using h3
  exact ⟨key.1, key.2.1, key.2.2, hasc⟩

theorem claim_C10_witness :
    isErr (apply_gemini_judgement "hello world foo"
        [⟨(12, 15), "B", "mask", none⟩, ⟨(0, 5), "A", "mask", none⟩])
      = false ∧
    (redactFins (apply_gemini_judgement "hello world foo"
        [⟨(12, 15), "B", "mask", none⟩, ⟨(0, 5), "A", "mask", none⟩])).map
        Finding.name
      = ((sortJudgements
          [⟨(12, 15), "B", "mask", none⟩, ⟨(0, 5), "A", "mask", none⟩]).reverse).map
          Judgement.label ∧
    (redactFins (apply_gemini_judgement "hello world foo"
        [⟨(12, 15), "B", "mask", none⟩, ⟨(0, 5), "A", "mask", none⟩])).map
        Finding.action
      = ((sortJudgements
          [⟨(12, 15), "B", "mask", none⟩, ⟨(0, 5), "A", "mask", none⟩]).reverse).map
          Judgement.action ∧
    ((sortJudgements
        [⟨(12, 15), "B", "mask", none⟩, ⟨(0, 5), "A", "mask", none⟩]).reverse).Pairwise
      (fun a b => a.span.1 < b.span.1) :=
  claim_C10_findings_order "hello world foo"
    [⟨(12, 15), "B", "mask", none⟩, ⟨(0, 5), "A", "mask", none⟩]
    (by decide) (by decide)

/-- C6: for two non-overlapping mask judgements applied in descending
start order, `apply_gemini_judgement` yields exactly the concatenation
unaffected-prefix ++ replacement ++ unaffected-middle ++ replacement ++
unaffected-suffix (all slices taken from the original text), whatever the
replacement lengths: the higher-offset splice never shifts the offsets of
the judgement applied after it. -/
theorem claim_C6_descending_splice (t : String) (j1 j2 : Judgement)
    (s1 e1 s2 e2 : Nat)
    (hsp1 : j1.span = ((s1 : Int), (e1 : Int)))
    (hsp2 : j2.span = ((s2 : Int), (e2 : Int)))
    (ha1 : j1.action = "mask") (ha2 : j2.action = "mask")
    (h1 : s1 ≤ e1) (h12 : e1 ≤ s2) (hlt : s1 < s2) (h3 : s2 ≤ e2)
    (h4 : e2 ≤ t.data.length) :
    apply_gemini_judgement t [j1, j2]
      = .ok (pyPrefix t (s1 : Int)
          ++ j1.replacement.getD ("[" ++ j1.label ++ "]")
          ++ (pySlice t (e1 : Int) (s2 : Int)
            ++ j2.replacement.getD ("[" ++ j2.label ++ "]")
            ++ pySuffix t (e2 : Int)),
        [⟨j1.label, pySlice t (s1 : Int) (e1 : Int), "mask"⟩,
         ⟨j2.label, pySlice t (s2 : Int) (e2 : Int), "mask"⟩]) := by
  have hgt : ¬ judgeGE j1 j2 := by
    simp [judgeGE, hsp1, hsp2]
    exact_mod_cast hlt
  have hsort : sortJudgements [j1, j2] = [j2, j1] := by
    simp [sortJudgements, List.insertionSort, List.orderedInsert, hgt]
  have hne : ([j1, j2] : List Judgement).isEmpty = false := rfl
  rw [apply_gemini_judgement]
  simp only [hne, Bool.false_eq_true, if_false, hsort]
  rw [applyJudgeGo]
  simp only [hsp2, ha2]
  rw [if_neg (by simp)]
  rw [applyJudgeGo]
  simp only [hsp1, ha1]
  rw [if_neg (by simp)]
  rw [applyJudgeGo]
  rw [pySlice_splice_left t (j2.replacement.getD ("[" ++ j2.label ++ "]"))
        s1 e1 s2 e2 h12 h3 h4 h1,
      pyPrefix_splice t (j2.replacement.getD ("[" ++ j2.label ++ "]"))
        s1 s2 e2 (le_trans h1 h12) h3 h4,
      pySuffix_splice t (j2.replacement.getD ("[" ++ j2.label ++ "]"))
        e1 s2 e2 h12 h3 h4]
  simp [String.append_assoc]

theorem claim_C6_witness :
    apply_gemini_judgement "abcdefghijklmnopqrstuvwxyz0123"
        [⟨(5, 9), "N1", "mask", some "XY"⟩,
         ⟨(20, 22), "N2", "mask", some "LONGREP"⟩]
      = .ok ("abcdeXYjklmnopqrstLONGREPwxyz0123",
        [⟨"N1", "fghi", "mask"⟩, ⟨"N2", "uv", "mask"⟩]) := by
  have h := claim_C6_descending_splice "abcdefghijklmnopqrstuvwxyz0123"
    ⟨(5, 9), "N1", "mask", some "XY"⟩
    ⟨(20, 22), "N2", "mask", some "LONGREP"⟩
    5 9 20 22 rfl rfl rfl rfl (by decide) (by decide) (by decide)
    (by decide) (by decide)
  exact h

end S2P
